import Mathlib

/-!
Verification of the rscat rendering core: a shallow embedding of the
orbit camera, the delimited-record vertex parser, the axes fixture and the
per-batch render call, with theorems about the properties the design
documentation states. Rust `f32` values are modelled as real numbers; the
Rust `%` operator on floats is modelled as truncated remainder.
-/

open Real

/-- Truncation toward zero, as Rust float-to-float remainder truncates. -/
noncomputable def rtrunc (x : ℝ) : ℤ :=
  if 0 ≤ x then ⌊x⌋ else ⌈x⌉

/-- Rust `%` on floats: `x - trunc(x / y) * y` (sign follows the dividend). -/
noncomputable def f32_rem (x y : ℝ) : ℝ :=
  x - (rtrunc (x / y) : ℝ) * y

/-- Rust `f32::to_radians`: multiply by `pi / 180`. -/
noncomputable def to_radians (x : ℝ) : ℝ :=
  x * (Real.pi / 180)

/-- `OrbitCamera` state from `src/rendering/mod.rs`. -/
structure OrbitCamera where
  aspect : ℝ
  fovy : ℝ
  znear : ℝ
  zfar : ℝ
  target : ℝ × ℝ × ℝ
  range : ℝ
  azimuth : ℝ
  elevation : ℝ

/-- `OrbitCamera::default` from `src/rendering/mod.rs`. -/
noncomputable def OrbitCamera.default (aspect : ℝ) : OrbitCamera :=
  { aspect := aspect
    fovy := 45.0 * 180.0 * 3.1415
    znear := 0.1
    zfar := 100.0
    target := (0.0, 0.0, 0.0)
    range := 10.0
    azimuth := to_radians 45
    elevation := to_radians 45 }

/-- `OrbitCamera::set_aspect`. -/
def set_aspect (c : OrbitCamera) (aspect : ℝ) : OrbitCamera :=
  { c with aspect := aspect }

/-- `OrbitCamera::move_longitudinally`: `range *= 0.75f32.powf(delta)`. -/
noncomputable def move_longitudinally (c : OrbitCamera) (delta : ℝ) : OrbitCamera :=
  { c with range := c.range * (0.75 : ℝ) ^ delta }

/-- `OrbitCamera::move_on_orbit`: adjust azimuth and elevation, clamp the
elevation between `-270.to_radians()` and `90.to_radians()`, then reduce the
azimuth with the `%` operator by `360.to_radians()`. -/
noncomputable def move_on_orbit (c : OrbitCamera) (delta : ℝ × ℝ) : OrbitCamera :=
  let azimuth1 := c.azimuth - delta.1 * 0.01
  let elevation1 := c.elevation + delta.2 * 0.01
  let elevation2 :=
    if elevation1 ≥ to_radians 90 then to_radians 90
    else if elevation1 ≤ -to_radians 270 then -to_radians 270
    else elevation1
  { c with azimuth := f32_rem azimuth1 (to_radians 360), elevation := elevation2 }

/-- `OrbitCamera::move_focus`: the 3x2 matrix from the source applied to the
drag delta, scaled by `0.1`, subtracted from the target. -/
noncomputable def move_focus (c : OrbitCamera) (delta : ℝ × ℝ) : OrbitCamera :=
  let world_space_delta : ℝ × ℝ × ℝ :=
    ((-Real.sin c.azimuth * delta.1 + Real.cos c.azimuth * delta.2) * 0.1,
     (Real.cos c.azimuth * delta.1 + Real.sin c.azimuth * delta.2) * 0.1,
     (0 * delta.1 + 0 * delta.2) * 0.1)
  { c with target := c.target - world_space_delta }

/-- A homogeneous 4-vector of scalars, as the `[f32; 4]` fields of `Vertex`. -/
structure Vec4 (α : Type) where
  x : α
  y : α
  z : α
  w : α
deriving DecidableEq

/-- `Vertex` from `src/rendering/mod.rs`, generic over the scalar type. -/
structure Vertex (α : Type) where
  position : Vec4 α
  color : Vec4 α
  size : α
deriving DecidableEq

/-- Rust `str::split(',')` on a line of characters: fields between commas,
with the empty line producing one empty field. -/
def splitFields : List Char → List (List Char)
  | [] => [[]]
  | c :: rest =>
    if c = ',' then [] :: splitFields rest
    else
      match splitFields rest with
      | [] => [[c]]
      | f :: fs => (c :: f) :: fs

/-- One iteration of the `file_to_vertices` loop from `src/main.rs`: split the
line on commas, reject a field count other than 7, then parse the seven
fields in order (`?` short-circuits at the first failure), fixing the
homogeneous position component and the color alpha to `1.0`. The scalar
parse function `p` abstracts Rust `str::parse::<f32>`. -/
def parseLine {α : Type} [One α] (p : List Char → Option α) (line : List Char) :
    Except String (Vertex α) :=
  match splitFields line with
  | [f0, f1, f2, f3, f4, f5, f6] =>
    match p f0 with
    | none => Except.error "invalid float literal"
    | some x =>
      match p f1 with
      | none => Except.error "invalid float literal"
      | some y =>
        match p f2 with
        | none => Except.error "invalid float literal"
        | some z =>
          match p f3 with
          | none => Except.error "invalid float literal"
          | some r =>
            match p f4 with
            | none => Except.error "invalid float literal"
            | some g =>
              match p f5 with
              | none => Except.error "invalid float literal"
              | some b =>
                match p f6 with
                | none => Except.error "invalid float literal"
                | some s =>
                  Except.ok { position := ⟨x, y, z, 1⟩, color := ⟨r, g, b, 1⟩, size := s }
  | _ => Except.error "Input needs 7 cols: X, Y, Z, R, G, B, Size"

/-- `file_to_vertices` from `src/main.rs`, on the list of lines of the file:
parse each line in order, returning the first error if any line fails and
the in-order vertex list otherwise. -/
def file_to_vertices {α : Type} [One α] (p : List Char → Option α) :
    List (List Char) → Except String (List (Vertex α))
  | [] => Except.ok []
  | line :: rest =>
    match parseLine p line with
    | Except.error e => Except.error e
    | Except.ok v =>
      match file_to_vertices p rest with
      | Except.error e => Except.error e
      | Except.ok vs => Except.ok (v :: vs)

/-- A single-digit scalar parse function used to exercise the parser theorems
on concrete inputs. -/
def digitP : List Char → Option ℕ
  | [c] => if '0' ≤ c ∧ c ≤ '9' then some (c.toNat - 48) else none
  | _ => none

/-- A well-formed 7-field input line, `1,2,3,4,5,6,7`. -/
def demoLine : List Char :=
  ['1', ',', '2', ',', '3', ',', '4', ',', '5', ',', '6', ',', '7']

/-- A malformed input line with only 2 fields, `1,2`. -/
def demoBadLine : List Char := ['1', ',', '2']

/-- The vertex `demoLine` parses to under `digitP`. -/
def demoVertex : Vertex ℕ := ⟨⟨1, 2, 3, 1⟩, ⟨4, 5, 6, 1⟩, 7⟩

/-- `axes` from `src/rendering/defaults.rs`: the origin marker followed, for
each `i` in `1..10`, by one marker on each of the X, Y and Z axes. Scalars
are modelled as integers since every coordinate in the fixture is integral. -/
def axes : List (Vertex ℤ) :=
  (⟨⟨0, 0, 0, 1⟩, ⟨1, 1, 1, 1⟩, 40⟩ : Vertex ℤ) ::
    (List.range 9).flatMap (fun i =>
      [⟨⟨(i : ℤ) + 1, 0, 0, 1⟩, ⟨1, 0, 0, 0⟩, 20⟩,
       ⟨⟨0, (i : ℤ) + 1, 0, 1⟩, ⟨0, 1, 0, 0⟩, 20⟩,
       ⟨⟨0, 0, (i : ℤ) + 1, 1⟩, ⟨0, 0, 1, 0⟩, 20⟩])

/-- The 27 axis-marker positions the documentation describes: integer
coordinates 1 through 9 along each of the X, Y and Z axes. -/
def axes_points : List (Vec4 ℤ) :=
  ((List.range 9).map fun i => ⟨(i : ℤ) + 1, 0, 0, 1⟩)
    ++ ((List.range 9).map fun i => ⟨0, (i : ℤ) + 1, 0, 1⟩)
    ++ ((List.range 9).map fun i => ⟨0, 0, (i : ℤ) + 1, 1⟩)

/-- Dot product on 3-vectors. -/
def dot3 (a b : ℝ × ℝ × ℝ) : ℝ :=
  a.1 * b.1 + a.2.1 * b.2.1 + a.2.2 * b.2.2

/-- Cross product on 3-vectors. -/
def cross3 (a b : ℝ × ℝ × ℝ) : ℝ × ℝ × ℝ :=
  (a.2.1 * b.2.2 - a.2.2 * b.2.1,
   a.2.2 * b.1 - a.1 * b.2.2,
   a.1 * b.2.1 - a.2.1 * b.1)

/-- Euclidean norm of a 3-vector. -/
noncomputable def norm3 (v : ℝ × ℝ × ℝ) : ℝ :=
  Real.sqrt (dot3 v v)

/-- Normalization of a 3-vector. -/
noncomputable def normalize3 (v : ℝ × ℝ × ℝ) : ℝ × ℝ × ℝ :=
  (v.1 / norm3 v, v.2.1 / norm3 v, v.2.2 / norm3 v)

/-- `cartesian_from_polar` from `src/rendering/mod.rs`. -/
noncomputable def cartesian_from_polar (range azimuth elevation : ℝ) : ℝ × ℝ × ℝ :=
  let r_cos_el := range * Real.cos elevation
  (r_cos_el * Real.cos azimuth, r_cos_el * Real.sin azimuth, range * Real.sin elevation)

/-- The right-handed look-at view matrix, as `Isometry3::look_at_rh`
followed by `to_homogeneous` produces it. -/
noncomputable def look_at_rh (eye target up : ℝ × ℝ × ℝ) : Matrix (Fin 4) (Fin 4) ℝ :=
  let zaxis := normalize3 (eye - target)
  let xaxis := normalize3 (cross3 up zaxis)
  let yaxis := cross3 zaxis xaxis
  !![xaxis.1, xaxis.2.1, xaxis.2.2, -dot3 xaxis eye;
     yaxis.1, yaxis.2.1, yaxis.2.2, -dot3 yaxis eye;
     zaxis.1, zaxis.2.1, zaxis.2.2, -dot3 zaxis eye;
     0, 0, 0, 1]

/-- The perspective projection matrix of `Perspective3::new(aspect, fovy,
znear, zfar)`. -/
noncomputable def perspective_matrix (aspect fovy znear zfar : ℝ) : Matrix (Fin 4) (Fin 4) ℝ :=
  let t := Real.tan (fovy / 2)
  !![1 / (aspect * t), 0, 0, 0;
     0, 1 / t, 0, 0;
     0, 0, -(zfar + znear) / (zfar - znear), -(2 * zfar * znear) / (zfar - znear);
     0, 0, -1, 0]

/-- The fixed clip-space correction constant from `generate_uniform`
(`Matrix4::new` lists entries row by row). -/
noncomputable def opengl_to_wgpu_matrix : Matrix (Fin 4) (Fin 4) ℝ :=
  !![-1, 0, 0, 0;
     0, -1, 0, 0;
     0, 0, 0.5, 0;
     0, 0, 0.5, 1]

/-- `CameraUniform` from `src/rendering/mod.rs`. -/
structure CameraUniform where
  camera_pos : Vec4 ℝ
  view_proj : Matrix (Fin 4) (Fin 4) ℝ

/-- `Point3::to_homogeneous`: append a unit homogeneous coordinate. -/
def to_homogeneous (v : ℝ × ℝ × ℝ) : Vec4 ℝ :=
  ⟨v.1, v.2.1, v.2.2, 1⟩

/-- `OrbitCamera::generate_uniform` from `src/rendering/mod.rs`. -/
noncomputable def generate_uniform (c : OrbitCamera) : CameraUniform :=
  let d : ℝ := 0.01
  let eye := c.target + cartesian_from_polar c.range c.azimuth c.elevation
  let up := c.target + cartesian_from_polar c.range c.azimuth (c.elevation + d) - eye
  let view := look_at_rh eye c.target up
  let projection := perspective_matrix c.aspect c.fovy c.znear c.zfar
  { camera_pos := to_homogeneous eye
    view_proj := opengl_to_wgpu_matrix * projection * view }

/-- The world-space pan vector the specification describes for `move_focus`:
the drag delta taken into the camera's azimuth-rotated horizontal plane,
with no vertical component. -/
noncomputable def focus_delta (azimuth : ℝ) (delta : ℝ × ℝ) : ℝ × ℝ × ℝ :=
  (Real.sin azimuth * delta.1 - Real.cos azimuth * delta.2,
   -(Real.cos azimuth * delta.1) - Real.sin azimuth * delta.2,
   0)

/-- Render pass attachment load policy, as `wgpu::LoadOp`. -/
inductive LoadOp where
  | Clear
  | Load
deriving DecidableEq

/-- Render pass attachment store policy, as `wgpu::StoreOp`. -/
inductive StoreOp where
  | Store
  | Clear
deriving DecidableEq

/-- The load/store configuration of the render pass `Renderer::render` opens. -/
structure RenderPassDesc where
  color_load_op : LoadOp
  color_store_op : StoreOp
  depth_load_op : LoadOp
  depth_store_op : StoreOp
  stencil_load_op : LoadOp
  stencil_store_op : StoreOp

/-- One `draw_indexed(indices, base_vertex, instances)` call. -/
structure DrawIndexedCall where
  index_start : ℕ
  index_end : ℕ
  base_vertex : ℤ
  instance_start : ℕ
  instance_end : ℕ
deriving DecidableEq

/-- What one `Renderer::render` call records into the command encoder. -/
structure RenderCall where
  pass : RenderPassDesc
  uniform : CameraUniform
  draws : List DrawIndexedCall

/-- The `Renderer` state the resize and render paths touch: the swapchain
descriptor dimensions, the camera, and the depth buffer dimensions. -/
structure Renderer where
  sc_width : ℕ
  sc_height : ℕ
  camera : OrbitCamera
  depth_width : ℕ
  depth_height : ℕ

/-- `Renderer::resize` from `src/rendering/mod.rs`: store the new size in the
swapchain descriptor, update the camera aspect to `width / height`, and
recreate the swapchain and depth texture at the stored size. -/
noncomputable def resize (r : Renderer) (width height : ℕ) : Renderer :=
  { sc_width := width
    sc_height := height
    camera := set_aspect r.camera ((width : ℝ) / (height : ℝ))
    depth_width := width
    depth_height := height }

/-- `Renderer::render` from `src/rendering/mod.rs`: load operations are
`Clear` exactly on the first pass and `Load` otherwise, stores are always
`Store`, the camera uniform is freshly generated, and a single indexed draw
covers `0..indices.len()` with base vertex 0 and one instance. -/
noncomputable def render (r : Renderer) (vertices : List (Vertex ℝ))
    (indices : List ℕ) (first_pass : Bool) : RenderCall :=
  { pass :=
      { color_load_op := if first_pass then LoadOp.Clear else LoadOp.Load
        color_store_op := StoreOp.Store
        depth_load_op := if first_pass then LoadOp.Clear else LoadOp.Load
        depth_store_op := StoreOp.Store
        stencil_load_op := if first_pass then LoadOp.Clear else LoadOp.Load
        stencil_store_op := StoreOp.Store }
    uniform := generate_uniform r.camera
    draws := [⟨0, indices.length, 0, 0, 1⟩] }

lemma f32_rem_of_neg {x y : ℝ} (hy : 0 < y) (h1 : -y < x) (h2 : x < 0) :
    f32_rem x y = x := by
  have hqneg : x / y < 0 := div_neg_of_neg_of_pos h2 hy
  have hq1 : (-1 : ℝ) < x / y := by
    rw [lt_div_iff₀ hy]
    nlinarith
  have hceil : ⌈x / y⌉ = 0 := by
    rw [Int.ceil_eq_zero_iff]
    exact ⟨hq1, hqneg.le⟩
  have ht : rtrunc (x / y) = 0 := by
    unfold rtrunc
    rw [if_neg (not_le.mpr hqneg)]
    exact hceil
  unfold f32_rem
  rw [ht]
  push_cast
  ring

lemma f32_rem_bounds (x y : ℝ) (hy : 0 < y) :
    -y < f32_rem x y ∧ f32_rem x y < y := by
  have hxy : x / y * y = x := div_mul_cancel₀ x hy.ne'
  unfold f32_rem rtrunc
  by_cases hq : 0 ≤ x / y
  · rw [if_pos hq]
    have hfl : (⌊x / y⌋ : ℝ) ≤ x / y := Int.floor_le _
    have hfl2 : x / y < (⌊x / y⌋ : ℝ) + 1 := Int.lt_floor_add_one _
    constructor <;> nlinarith
  · rw [if_neg hq]
    have hcl : x / y ≤ (⌈x / y⌉ : ℝ) := Int.le_ceil _
    have hcl2 : (⌈x / y⌉ : ℝ) < x / y + 1 := Int.ceil_lt_add_one _
    constructor <;> nlinarith

lemma to_radians_pos {x : ℝ} (hx : 0 < x) : 0 < to_radians x := by
  unfold to_radians
  have := Real.pi_pos
  positivity

/-- C1 counterexample: from the default camera (azimuth 45 degrees), a drag
with `delta.x = 100` leaves the azimuth negative, outside `[0, 360)` degrees:
Rust `%` keeps the sign of the dividend. -/
theorem claim_C1_counterexample :
    (move_on_orbit (OrbitCamera.default 1) (100, 0)).azimuth < 0 := by
  have hpi3 : (3 : ℝ) < Real.pi := Real.pi_gt_three
  have hpi4 : Real.pi < 4 := Real.pi_lt_four
  show f32_rem (to_radians 45 - 100 * 0.01) (to_radians 360) < 0
  have hx : to_radians 45 - 100 * 0.01 < 0 := by
    unfold to_radians
    nlinarith
  have hylt : -to_radians 360 < to_radians 45 - 100 * 0.01 := by
    unfold to_radians
    nlinarith
  rw [f32_rem_of_neg (to_radians_pos (by norm_num)) hylt hx]
  exact hx

/-- C1 (amended): `move_on_orbit` subtracts `delta.x * 0.01` from the azimuth
and reduces it with the sign-preserving remainder by 360 degrees, landing in
the open interval `(-360, 360)` degrees rather than `[0, 360)`; it adds
`delta.y * 0.01` to the elevation and clamps (saturating) into
`[-270, 90]` degrees. -/
theorem claim_C1_orbit_bounds (c : OrbitCamera) (delta : ℝ × ℝ) :
    (move_on_orbit c delta).azimuth
        = f32_rem (c.azimuth - delta.1 * 0.01) (to_radians 360)
    ∧ -to_radians 360 < (move_on_orbit c delta).azimuth
    ∧ (move_on_orbit c delta).azimuth < to_radians 360
    ∧ (move_on_orbit c delta).elevation
        = (if c.elevation + delta.2 * 0.01 ≥ to_radians 90 then to_radians 90
           else if c.elevation + delta.2 * 0.01 ≤ -to_radians 270 then -to_radians 270
           else c.elevation + delta.2 * 0.01)
    ∧ -to_radians 270 ≤ (move_on_orbit c delta).elevation
    ∧ (move_on_orbit c delta).elevation ≤ to_radians 90 := by
  have h360 : 0 < to_radians 360 := to_radians_pos (by norm_num)
  have hb := f32_rem_bounds (c.azimuth - delta.1 * 0.01) (to_radians 360) h360
  have h90 : 0 ≤ to_radians 90 := (to_radians_pos (by norm_num)).le
  have h270 : 0 ≤ to_radians 270 := (to_radians_pos (by norm_num)).le
  refine ⟨rfl, hb.1, hb.2, rfl, ?_, ?_⟩
  · show -to_radians 270 ≤
      (if c.elevation + delta.2 * 0.01 ≥ to_radians 90 then to_radians 90
       else if c.elevation + delta.2 * 0.01 ≤ -to_radians 270 then -to_radians 270
       else c.elevation + delta.2 * 0.01)
    split_ifs with h1 h2
    · linarith
    · linarith
    · linarith
  · show (if c.elevation + delta.2 * 0.01 ≥ to_radians 90 then to_radians 90
       else if c.elevation + delta.2 * 0.01 ≤ -to_radians 270 then -to_radians 270
       else c.elevation + delta.2 * 0.01) ≤ to_radians 90
    split_ifs with h1 h2
    · linarith
    · linarith
    · linarith

/-- C5: zooming multiplies the range by `0.75 ^ delta`, so a positive range
stays positive, and zooming by `d` then `-d` (in either order) restores the
original range exactly in the real-number model. -/
theorem claim_C5_zoom (c : OrbitCamera) (d : ℝ) (h : 0 < c.range) :
    0 < (move_longitudinally c d).range
    ∧ (move_longitudinally (move_longitudinally c d) (-d)).range = c.range
    ∧ (move_longitudinally (move_longitudinally c (-d)) d).range = c.range := by
  have hbase : (0 : ℝ) < 0.75 := by norm_num
  have hpow : ∀ e : ℝ, (0 : ℝ) < (0.75 : ℝ) ^ e := fun e => Real.rpow_pos_of_pos hbase e
  refine ⟨mul_pos h (hpow d), ?_, ?_⟩
  · show c.range * (0.75 : ℝ) ^ d * (0.75 : ℝ) ^ (-d) = c.range
    rw [mul_assoc, ← Real.rpow_add hbase, add_neg_cancel, Real.rpow_zero, mul_one]
  · show c.range * (0.75 : ℝ) ^ (-d) * (0.75 : ℝ) ^ d = c.range
    rw [mul_assoc, ← Real.rpow_add hbase, neg_add_cancel, Real.rpow_zero, mul_one]

/-- C5 witness: the default camera has positive range, so the zoom theorem
applies at delta 2. -/
theorem claim_C5_zoom_witness :
    0 < (OrbitCamera.default 1).range
    ∧ (0 < (move_longitudinally (OrbitCamera.default 1) 2).range
       ∧ (move_longitudinally (move_longitudinally (OrbitCamera.default 1) 2) (-2)).range
           = (OrbitCamera.default 1).range
       ∧ (move_longitudinally (move_longitudinally (OrbitCamera.default 1) (-2)) 2).range
           = (OrbitCamera.default 1).range) :=
  ⟨by norm_num [OrbitCamera.default],
   claim_C5_zoom (OrbitCamera.default 1) 2 (by norm_num [OrbitCamera.default])⟩

/-- C9: each camera operation changes only its designated fields: zooming
only the range, orbiting only azimuth and elevation, panning only the target,
aspect update only the aspect; field-of-view and clip planes never change. -/
theorem claim_C9_frame (c : OrbitCamera) (a d : ℝ) (v : ℝ × ℝ) :
    ((set_aspect c a).fovy = c.fovy ∧ (set_aspect c a).znear = c.znear
      ∧ (set_aspect c a).zfar = c.zfar ∧ (set_aspect c a).target = c.target
      ∧ (set_aspect c a).range = c.range ∧ (set_aspect c a).azimuth = c.azimuth
      ∧ (set_aspect c a).elevation = c.elevation)
    ∧ ((move_longitudinally c d).aspect = c.aspect
      ∧ (move_longitudinally c d).fovy = c.fovy
      ∧ (move_longitudinally c d).znear = c.znear
      ∧ (move_longitudinally c d).zfar = c.zfar
      ∧ (move_longitudinally c d).target = c.target
      ∧ (move_longitudinally c d).azimuth = c.azimuth
      ∧ (move_longitudinally c d).elevation = c.elevation)
    ∧ ((move_on_orbit c v).aspect = c.aspect
      ∧ (move_on_orbit c v).fovy = c.fovy
      ∧ (move_on_orbit c v).znear = c.znear
      ∧ (move_on_orbit c v).zfar = c.zfar
      ∧ (move_on_orbit c v).target = c.target
      ∧ (move_on_orbit c v).range = c.range)
    ∧ ((move_focus c v).aspect = c.aspect
      ∧ (move_focus c v).fovy = c.fovy
      ∧ (move_focus c v).znear = c.znear
      ∧ (move_focus c v).zfar = c.zfar
      ∧ (move_focus c v).range = c.range
      ∧ (move_focus c v).azimuth = c.azimuth
      ∧ (move_focus c v).elevation = c.elevation) :=
  ⟨⟨rfl, rfl, rfl, rfl, rfl, rfl, rfl⟩,
   ⟨rfl, rfl, rfl, rfl, rfl, rfl, rfl⟩,
   ⟨rfl, rfl, rfl, rfl, rfl, rfl⟩,
   ⟨rfl, rfl, rfl, rfl, rfl, rfl, rfl⟩⟩

lemma parseLine_ok_char {α : Type} [One α] {p : List Char → Option α} {l : List Char}
    {v : Vertex α} (h : parseLine p l = Except.ok v) :
    ∃ f0 f1 f2 f3 f4 f5 f6, splitFields l = [f0, f1, f2, f3, f4, f5, f6]
      ∧ p f0 = some v.position.x ∧ p f1 = some v.position.y ∧ p f2 = some v.position.z
      ∧ p f3 = some v.color.x ∧ p f4 = some v.color.y ∧ p f5 = some v.color.z
      ∧ p f6 = some v.size ∧ v.position.w = 1 ∧ v.color.w = 1 := by
  unfold parseLine at h
  split at h
  case h_2 => exact Except.noConfusion h
  case h_1 f0 f1 f2 f3 f4 f5 f6 heq =>
    split at h
    case h_1 => exact Except.noConfusion h
    case h_2 x h0 =>
      split at h
      case h_1 => exact Except.noConfusion h
      case h_2 y h1 =>
        split at h
        case h_1 => exact Except.noConfusion h
        case h_2 z h2 =>
          split at h
          case h_1 => exact Except.noConfusion h
          case h_2 r h3 =>
            split at h
            case h_1 => exact Except.noConfusion h
            case h_2 g h4 =>
              split at h
              case h_1 => exact Except.noConfusion h
              case h_2 b h5 =>
                split at h
                case h_1 => exact Except.noConfusion h
                case h_2 s h6 =>
                  injection h with h'
                  subst h'
                  exact ⟨f0, f1, f2, f3, f4, f5, f6, heq,
                    h0, h1, h2, h3, h4, h5, h6, rfl, rfl⟩

lemma list_shape_seven {β : Type} :
    ∀ l : List β, l.length = 7 → ∃ a b c d e f g, l = [a, b, c, d, e, f, g]
  | [a, b, c, d, e, f, g], _ => ⟨a, b, c, d, e, f, g, rfl⟩

lemma parseLine_err_char {α : Type} [One α] {p : List Char → Option α} {l : List Char}
    {e : String} (h : parseLine p l = Except.error e) :
    (splitFields l).length ≠ 7 ∨ ∃ f ∈ splitFields l, p f = none := by
  unfold parseLine at h
  split at h
  case h_2 x hne =>
    left
    intro hlen
    obtain ⟨a, b, c, d, e', f, g, heq⟩ := list_shape_seven _ hlen
    exact hne a b c d e' f g heq
  case h_1 f0 f1 f2 f3 f4 f5 f6 heq =>
    split at h
    case h_2 x h0 =>
      split at h
      case h_2 y h1 =>
        split at h
        case h_2 z h2 =>
          split at h
          case h_2 r h3 =>
            split at h
            case h_2 g h4 =>
              split at h
              case h_2 b h5 =>
                split at h
                case h_2 s h6 => exact Except.noConfusion h
                case h_1 h6 => exact Or.inr ⟨f6, by rw [heq]; simp, h6⟩
              case h_1 h5 => exact Or.inr ⟨f5, by rw [heq]; simp, h5⟩
            case h_1 h4 => exact Or.inr ⟨f4, by rw [heq]; simp, h4⟩
          case h_1 h3 => exact Or.inr ⟨f3, by rw [heq]; simp, h3⟩
        case h_1 h2 => exact Or.inr ⟨f2, by rw [heq]; simp, h2⟩
      case h_1 h1 => exact Or.inr ⟨f1, by rw [heq]; simp, h1⟩
    case h_1 h0 => exact Or.inr ⟨f0, by rw [heq]; simp, h0⟩

lemma parseLine_isOk_iff {α : Type} [One α] {p : List Char → Option α} {l : List Char} :
    (∃ v, parseLine p l = Except.ok v)
      ↔ (splitFields l).length = 7 ∧ ∀ f ∈ splitFields l, p f ≠ none := by
  constructor
  · rintro ⟨v, hv⟩
    obtain ⟨f0, f1, f2, f3, f4, f5, f6, heq, h0, h1, h2, h3, h4, h5, h6, -, -⟩ :=
      parseLine_ok_char hv
    rw [heq]
    refine ⟨rfl, ?_⟩
    intro f hf
    simp only [List.mem_cons, List.not_mem_nil, or_false] at hf
    rcases hf with rfl | rfl | rfl | rfl | rfl | rfl | rfl <;> simp_all
  · rintro ⟨hlen, hfields⟩
    rcases ho : parseLine p l with e | v
    · rcases parseLine_err_char ho with hbad | ⟨f, hf, hn⟩
      · exact absurd hlen hbad
      · exact absurd hn (hfields f hf)
    · exact ⟨v, rfl⟩

lemma file_to_vertices_error_iff {α : Type} [One α] {p : List Char → Option α} :
    ∀ lines : List (List Char),
      (∃ e, file_to_vertices p lines = Except.error e)
        ↔ ∃ l ∈ lines, (splitFields l).length ≠ 7 ∨ ∃ f ∈ splitFields l, p f = none
  | [] => by simp [file_to_vertices]
  | line :: rest => by
    have hline : ((splitFields line).length ≠ 7 ∨ ∃ f ∈ splitFields line, p f = none)
        ↔ ¬∃ v, parseLine p line = Except.ok v := by
      rw [parseLine_isOk_iff]
      push_neg
      constructor
      · rintro (h | ⟨f, hf, hn⟩)
        · exact fun hl => absurd hl h
        · exact fun _ => ⟨f, hf, hn⟩
      · intro h
        by_cases hl : (splitFields line).length = 7
        · obtain ⟨f, hf, hn⟩ := h hl
          exact Or.inr ⟨f, hf, hn⟩
        · exact Or.inl hl
    rw [file_to_vertices]
    rcases hp : parseLine p line with e | v
    · simp only []
      constructor
      · intro _
        refine ⟨line, List.mem_cons_self _ _, hline.mpr ?_⟩
        rintro ⟨v, hv⟩
        rw [hv] at hp
        exact Except.noConfusion hp
      · intro _
        exact ⟨e, rfl⟩
    · rcases hr : file_to_vertices p rest with e' | vs
      · simp only []
        constructor
        · intro _
          obtain ⟨l, hl, hbad⟩ := (file_to_vertices_error_iff rest).mp ⟨e', hr⟩
          exact ⟨l, List.mem_cons_of_mem _ hl, hbad⟩
        · intro _
          exact ⟨e', rfl⟩
      · simp only []
        constructor
        · rintro ⟨e, he⟩
          exact Except.noConfusion he
        · rintro ⟨l, hl, hbad⟩
          rcases List.mem_cons.mp hl with rfl | hl'
          · exact absurd ⟨v, hp⟩ (hline.mp hbad)
          · obtain ⟨e, he⟩ := (file_to_vertices_error_iff rest).mpr ⟨l, hl', hbad⟩
            rw [he] at hr
            exact Except.noConfusion hr

lemma file_to_vertices_ok_char {α : Type} [One α] {p : List Char → Option α} :
    ∀ (lines : List (List Char)) (vs : List (Vertex α)),
      file_to_vertices p lines = Except.ok vs →
        vs.length = lines.length
        ∧ ∀ i (h1 : i < lines.length) (h2 : i < vs.length),
            parseLine p (lines.get ⟨i, h1⟩) = Except.ok (vs.get ⟨i, h2⟩)
  | [], vs, h => by
    rw [file_to_vertices] at h
    injection h with h'
    subst h'
    exact ⟨rfl, fun i h1 _ => absurd h1 (Nat.not_lt_zero i)⟩
  | line :: rest, vs, h => by
    rw [file_to_vertices] at h
    rcases hp : parseLine p line with e | v <;> rw [hp] at h
    · exact Except.noConfusion h
    · rcases hr : file_to_vertices p rest with e' | vs' <;> rw [hr] at h
      · exact Except.noConfusion h
      · injection h with h'
        subst h'
        obtain ⟨hlen, hget⟩ := file_to_vertices_ok_char rest vs' hr
        refine ⟨by simp [hlen], ?_⟩
        intro i h1 h2
        cases i with
        | zero => exact hp
        | succ n =>
          exact hget n (Nat.lt_of_succ_lt_succ h1) (Nat.lt_of_succ_lt_succ h2)

/-- C3: the delimited-record parse fails exactly when some line has a field
count other than 7 or a field that does not parse; on success each line
contributes one vertex in input order, whose components are the parses of
fields 1-3 (position), 4-6 (color) and 7 (size). The `Except` result is
all-or-nothing: an error carries no vertex batch. -/
theorem claim_C3_parse {α : Type} [One α] (p : List Char → Option α)
    (lines : List (List Char)) :
    ((∃ e, file_to_vertices p lines = Except.error e)
      ↔ ∃ l ∈ lines, (splitFields l).length ≠ 7 ∨ ∃ f ∈ splitFields l, p f = none)
    ∧ (∀ vs, file_to_vertices p lines = Except.ok vs →
        vs.length = lines.length
        ∧ ∀ i (h1 : i < lines.length) (h2 : i < vs.length),
            parseLine p (lines.get ⟨i, h1⟩) = Except.ok (vs.get ⟨i, h2⟩))
    ∧ (∀ l v, parseLine p l = Except.ok v →
        ∃ f0 f1 f2 f3 f4 f5 f6, splitFields l = [f0, f1, f2, f3, f4, f5, f6]
          ∧ p f0 = some v.position.x ∧ p f1 = some v.position.y
          ∧ p f2 = some v.position.z ∧ p f3 = some v.color.x
          ∧ p f4 = some v.color.y ∧ p f5 = some v.color.z ∧ p f6 = some v.size) :=
  ⟨file_to_vertices_error_iff lines,
   fun vs h => file_to_vertices_ok_char lines vs h,
   fun _ _ h => by
     obtain ⟨f0, f1, f2, f3, f4, f5, f6, heq, h0, h1, h2, h3, h4, h5, h6, -, -⟩ :=
       parseLine_ok_char h
     exact ⟨f0, f1, f2, f3, f4, f5, f6, heq, h0, h1, h2, h3, h4, h5, h6⟩⟩

/-- C3 witness: a 3-field line makes the parse fail on a concrete input. -/
theorem claim_C3_parse_witness :
    ∃ e, file_to_vertices digitP [demoBadLine] = Except.error e :=
  (claim_C3_parse digitP [demoBadLine]).1.mpr ⟨demoBadLine, by decide, by decide⟩

/-- C10: every vertex of a successful parse has homogeneous position
component 1 and color alpha 1; the parser fixes both, never the input. -/
theorem claim_C10_homogeneous {α : Type} [One α] (p : List Char → Option α)
    (lines : List (List Char)) (vs : List (Vertex α))
    (h : file_to_vertices p lines = Except.ok vs) :
    ∀ v ∈ vs, v.position.w = 1 ∧ v.color.w = 1 := by
  induction lines generalizing vs with
  | nil =>
    rw [file_to_vertices] at h
    injection h with h'
    subst h'
    intro v hv
    exact absurd hv (List.not_mem_nil v)
  | cons line rest ih =>
    rw [file_to_vertices] at h
    rcases hp : parseLine p line with e | v0 <;> rw [hp] at h
    · exact Except.noConfusion h
    · rcases hr : file_to_vertices p rest with e' | vs' <;> rw [hr] at h
      · exact Except.noConfusion h
      · injection h with h'
        subst h'
        intro v hv
        rcases List.mem_cons.mp hv with rfl | hv'
        · obtain ⟨_, _, _, _, _, _, _, _, _, _, _, _, _, _, _, hw, hcw⟩ :=
            parseLine_ok_char hp
          exact ⟨hw, hcw⟩
        · exact ih vs' hr v hv'

/-- C10 witness: the concrete line `1,2,3,4,5,6,7` parses to a vertex with
homogeneous component 1 and alpha 1. -/
theorem claim_C10_homogeneous_witness :
    demoVertex.position.w = 1 ∧ demoVertex.color.w = 1 :=
  claim_C10_homogeneous digitP [demoLine] [demoVertex] rfl demoVertex (by decide)

/-- C8: the axes fixture has exactly 28 vertices; index 0 is the origin with
position `(0, 0, 0, 1)`, and the remaining 27 positions are precisely the
points at integer coordinates 1 through 9 along each of the X, Y and Z axes. -/
theorem claim_C8_axes :
    axes.length = 28
    ∧ (axes.get? 0).map (fun v => v.position) = some ⟨0, 0, 0, 1⟩
    ∧ ((axes.drop 1).map (fun v => v.position)).Perm axes_points := by
  decide

/-- C2: every render call opens its pass with color and depth load set to
`Clear` exactly when the first-pass flag is true and `Load` otherwise, always
stores, and issues exactly one indexed draw over `0..indices.len()`; with the
flag false the pass loads (never clears) prior content. -/
theorem claim_C2_render (r : Renderer) (vertices : List (Vertex ℝ))
    (indices : List ℕ) (first_pass : Bool) :
    (render r vertices indices first_pass).pass.color_load_op
        = (if first_pass then LoadOp.Clear else LoadOp.Load)
    ∧ (render r vertices indices first_pass).pass.depth_load_op
        = (if first_pass then LoadOp.Clear else LoadOp.Load)
    ∧ (render r vertices indices first_pass).pass.color_store_op = StoreOp.Store
    ∧ (render r vertices indices first_pass).pass.depth_store_op = StoreOp.Store
    ∧ (render r vertices indices first_pass).pass.stencil_store_op = StoreOp.Store
    ∧ (render r vertices indices first_pass).draws = [⟨0, indices.length, 0, 0, 1⟩]
    ∧ (render r vertices indices false).pass.color_load_op = LoadOp.Load
    ∧ (render r vertices indices false).pass.depth_load_op = LoadOp.Load
    ∧ (render r vertices indices true).pass.color_load_op = LoadOp.Clear
    ∧ (render r vertices indices true).pass.depth_load_op = LoadOp.Clear :=
  ⟨rfl, rfl, rfl, rfl, rfl, rfl, rfl, rfl, rfl, rfl⟩

/-- C7: resizing sets the camera aspect to `width / height`, leaves every
other camera field unchanged, and sizes the swapchain descriptor and depth
buffer to the new dimensions. -/
theorem claim_C7_resize (r : Renderer) (width height : ℕ) :
    (resize r width height).camera.aspect = (width : ℝ) / (height : ℝ)
    ∧ (resize r width height).camera.target = r.camera.target
    ∧ (resize r width height).camera.range = r.camera.range
    ∧ (resize r width height).camera.azimuth = r.camera.azimuth
    ∧ (resize r width height).camera.elevation = r.camera.elevation
    ∧ (resize r width height).camera.fovy = r.camera.fovy
    ∧ (resize r width height).camera.znear = r.camera.znear
    ∧ (resize r width height).camera.zfar = r.camera.zfar
    ∧ (resize r width height).sc_width = width
    ∧ (resize r width height).sc_height = height
    ∧ (resize r width height).depth_width = width
    ∧ (resize r width height).depth_height = height :=
  ⟨rfl, rfl, rfl, rfl, rfl, rfl, rfl, rfl, rfl, rfl, rfl, rfl⟩

/-- C6: panning translates the target by `0.1` times the azimuth-rotated
in-plane image of the drag delta, a world-space vector whose vertical
component is zero, so the target height never changes. -/
theorem claim_C6_focus (c : OrbitCamera) (delta : ℝ × ℝ) :
    (move_focus c delta).target = c.target + (0.1 : ℝ) • focus_delta c.azimuth delta
    ∧ (focus_delta c.azimuth delta).2.2 = 0
    ∧ (move_focus c delta).target.2.2 = c.target.2.2 := by
  have key : ∀ t : ℝ × ℝ × ℝ,
      t - ((-Real.sin c.azimuth * delta.1 + Real.cos c.azimuth * delta.2) * 0.1,
        (Real.cos c.azimuth * delta.1 + Real.sin c.azimuth * delta.2) * 0.1,
        (0 * delta.1 + 0 * delta.2) * 0.1)
      = t + (0.1 : ℝ) • focus_delta c.azimuth delta := by
    rintro ⟨tx, ty, tz⟩
    simp only [focus_delta, Prod.smul_mk, Prod.mk_sub_mk, Prod.mk_add_mk, smul_eq_mul,
      Prod.mk.injEq]
    refine ⟨by ring, by ring, by ring⟩
  have hm : (move_focus c delta).target
      = c.target - ((-Real.sin c.azimuth * delta.1 + Real.cos c.azimuth * delta.2) * 0.1,
        (Real.cos c.azimuth * delta.1 + Real.sin c.azimuth * delta.2) * 0.1,
        (0 * delta.1 + 0 * delta.2) * 0.1) := rfl
  refine ⟨by rw [hm, key], rfl, ?_⟩
  rw [hm, key]
  simp [focus_delta, Prod.snd_add, Prod.smul_snd, smul_eq_mul]

/-- C4: the camera uniform is derived exactly as documented: the eye sits at
`target + cartesian_from_polar(range, azimuth, elevation)`, the up vector is
the finite difference of the polar-to-cartesian map at `elevation + 0.01`,
the view-projection is the fixed correction constant times the perspective
projection times the right-handed look-at matrix, and the correction
constant is `diag(-1, -1, 0.5, 1)` plus the single entry `0.5` at row 3,
column 2. -/
theorem claim_C4_uniform (c : OrbitCamera) :
    (generate_uniform c).camera_pos
        = to_homogeneous (c.target + cartesian_from_polar c.range c.azimuth c.elevation)
    ∧ (generate_uniform c).view_proj
        = opengl_to_wgpu_matrix
            * perspective_matrix c.aspect c.fovy c.znear c.zfar
            * look_at_rh (c.target + cartesian_from_polar c.range c.azimuth c.elevation)
                c.target
                (cartesian_from_polar c.range c.azimuth (c.elevation + 0.01)
                  - cartesian_from_polar c.range c.azimuth c.elevation)
    ∧ (∀ r az el, cartesian_from_polar r az el
        = (r * Real.cos el * Real.cos az, r * Real.cos el * Real.sin az, r * Real.sin el))
    ∧ opengl_to_wgpu_matrix
        = Matrix.diagonal ![(-1 : ℝ), -1, 0.5, 1] + Matrix.stdBasisMatrix 3 2 (0.5 : ℝ) := by
  refine ⟨rfl, ?_, fun r az el => rfl, ?_⟩
  · show opengl_to_wgpu_matrix * perspective_matrix c.aspect c.fovy c.znear c.zfar
        * look_at_rh (c.target + cartesian_from_polar c.range c.azimuth c.elevation) c.target
          (c.target + cartesian_from_polar c.range c.azimuth (c.elevation + 0.01)
            - (c.target + cartesian_from_polar c.range c.azimuth c.elevation))
      = _
    rw [add_sub_add_left_eq_sub]
  · ext i j
    fin_cases i <;> fin_cases j <;>
      simp [opengl_to_wgpu_matrix, Matrix.stdBasisMatrix, Matrix.diagonal,
        Matrix.vecHead, Matrix.vecTail]
